import Mathlib

/-!
Verification development for the `stark` repository: an IPFS-backed
key-value store for versioned records.

The Go sources are shallowly embedded:

* strings are modelled as Lean `String`s; byte slices (`[]byte`) as
  `List Nat` with every element `< 256`;
* protobuf timestamps (`seconds`/`nanos`) as a pair of `Int`s;
* the IPFS node (an external collaborator reached through
  `src/ipfs/io.go`) as an explicit store mapping CID strings to DAG
  payloads, with per-call success flags standing for network failures;
* AES-256-GCM (the Go modules `crypto/aes` + `crypto/cipher`, external
  library code) as a parameter `AEAD` carrying the documented
  contract (decryption with the sealing key and nonce recovers the
  plaintext; decryption with a different equal-length key fails
  authentication); an executable instance `toyAEAD` is provided so
  that every theorem can be evaluated on concrete inputs;
* a Go `panic` (slice out of range) as a distinguished `Outcome.panicked`
  result, and the in-place mutation of `*Record` / `*Db` arguments by
  returning the post-call value of the caller record and database.

Two generations of the database code coexist in the repository and are
both embedded: namespace `V3` follows the current `Db.Set` keyed by the
record alias (with pubsub announce and pinata hooks) together with
the `Delete`/`GetSnapshot`/`Listen` of `starkIO.go`, and namespace `V2`
follows the earlier `Db.Set(key, record)` variant that enforces
`maxEntries`.
-/

set_option autoImplicit false

namespace Stark

/-- Protobuf timestamp: `seconds` (int64) and `nanos` (int32). -/
structure Ts where
  seconds : Int
  nanos : Int
  deriving DecidableEq, Repr

instance : Inhabited Ts := ⟨⟨0, 0⟩⟩

/-- `CheckTimeStamp` from `src/helpers/helpers.go` (same body as
`checkTimeStamp` in `dbhelpers.go`): `true` iff the new timestamp is
strictly more recent than the old one, comparing seconds first and then
nanoseconds. -/
def CheckTimeStamp (old new : Ts) : Bool :=
  if old.seconds > new.seconds then false
  else if old.seconds = new.seconds then
    if old.nanos ≥ new.nanos then false else true
  else true

/-- Error values declared in `stark.go` (plus the IPFS client and
crypto failure modes they wrap).  `snapshotUpdate`, `invalidSnapshot`
and `encryptedWrap` model `errors.Wrap(err, ...)` and keep the wrapped
error.  `authFailure` models the raw `cipher: message authentication
failed` error returned by the Go `gcm.Open`.  `cipherPasswordMismatch`
mirrors `ErrCipherPasswordMismatch`, which `stark.go` declares. -/
inductive Err where
  | noKey
  | attemptedOverwrite
  | recordHistory
  | attemptedUpdate
  | maxEntriesExceeded
  | snapshotUpdate (inner : Err)
  | invalidSnapshot (inner : Err)
  | encryptedWrap (inner : Err)
  | noCID
  | nodeFormat
  | notFound (key : String)
  | noLinks
  | dagPutFailed
  | dagGetFailed (cid : String)
  | addLinkFailed
  | rmLinkFailed
  | unpinFailed
  | publishFailed
  | nodeOffline
  | noProject
  | noSub
  | pinataKey
  | pinataSecret
  | cipherKeyMissing
  | cipherKeyLength
  | cipherPassword
  | cipherPasswordMismatch
  | encrypted
  | authFailure
  deriving DecidableEq, Repr

/-- Result of a Go call that can also panic: `ok` is a normal return,
`err` a returned error, `panicked` an uncaught runtime panic. -/
inductive Outcome (α : Type) where
  | ok (a : α)
  | err (e : Err)
  | panicked
  deriving DecidableEq, Repr

/-- `Comment` message from the protobuf schema: a timestamped history
entry carrying the CID the record held when the comment was added. -/
structure Comment where
  timestamp : Ts
  text : String
  previousCID : String
  deriving DecidableEq, Repr

instance : Inhabited Comment := ⟨⟨default, "", ""⟩⟩

/-- `Record` message (`src/stark.pb.go`), restricted to the fields the
embedded operations read or write. -/
structure Record where
  uuid : String
  previousCID : String
  history : List Comment
  encrypted : Bool
  alias_ : String
  description : String
  linkedSamples : List (String × String)
  linkedLibraries : List (String × String)
  barcodes : List (String × Int)
  deriving DecidableEq, Repr

instance : Inhabited Record := ⟨⟨"", "", [], false, "", "", [], [], []⟩⟩

/-- `Record.AddComment` (record helpers): append a comment holding the
current wall clock (passed explicitly here) and the current record
`PreviousCID`. -/
def Record.addComment (x : Record) (text : String) (now : Ts) : Record :=
  { x with history := x.history ++ [⟨now, text, x.previousCID⟩] }

/-- `Record.GetLastUpdatedTimestamp`: timestamp of the last history
entry (Go indexes `History[len-1]`; records always carry the comment
added on creation). -/
def Record.lastUpdatedTimestamp (x : Record) : Ts :=
  ((x.history.getLast?).getD default).timestamp

/-- Association-list lookup keyed by strings; first binding wins, like
a Go map in which `upsert`/`eraseKey` keep at most one binding per key. -/
def alookup {α : Type} : List (String × α) → String → Option α
  | [], _ => none
  | (k, v) :: rest, key => if k = key then some v else alookup rest key

/-- Insert-or-replace a binding, the write `m[k] = v` on a Go map. -/
def upsert {α : Type} (key : String) (v : α) : List (String × α) → List (String × α)
  | [] => [(key, v)]
  | (k, w) :: rest => if k = key then (key, v) :: rest else (k, w) :: upsert key v rest

/-- Remove a binding, the `delete(m, k)` builtin on a Go map. -/
def eraseKey {α : Type} (key : String) : List (String × α) → List (String × α)
  | [] => []
  | (k, w) :: rest => if k = key then eraseKey key rest else (k, w) :: eraseKey key rest

/-! ### Base64 (Go `encoding/base64`, `StdEncoding`)

`dbcrypto.go` frames its AEAD output with `base64.StdEncoding`.  The
standard alphabet and the 3-byte/4-char block coding are implemented
here; `b64decodeChars` follows the Go `DecodeString` in returning the
bytes decoded so far when it meets a bad quantum (the caller in
`decrypt` discards the error value). -/

/-- Character for a six-bit group, standard base64 alphabet. -/
def b64c (s : Nat) : Char :=
  if s < 26 then Char.ofNat (65 + s)
  else if s < 52 then Char.ofNat (71 + s)
  else if s < 62 then Char.ofNat (s - 4)
  else if s = 62 then '+'
  else '/'

/-- Six-bit value of a base64 character, `none` for characters outside
the standard alphabet (including the padding `=`). -/
def b64v (c : Char) : Option Nat :=
  if 65 ≤ c.toNat ∧ c.toNat ≤ 90 then some (c.toNat - 65)
  else if 97 ≤ c.toNat ∧ c.toNat ≤ 122 then some (c.toNat - 71)
  else if 48 ≤ c.toNat ∧ c.toNat ≤ 57 then some (c.toNat + 4)
  else if c = '+' then some 62
  else if c = '/' then some 63
  else none

/-- Base64 encoding of a byte list, three bytes per four characters
with `=` padding on the final partial block. -/
def b64encodeBytes : List Nat → List Char
  | b1 :: b2 :: b3 :: rest =>
      b64c (b1 / 4) :: b64c (b1 % 4 * 16 + b2 / 16) ::
        b64c (b2 % 16 * 4 + b3 / 64) :: b64c (b3 % 64) :: b64encodeBytes rest
  | [b1, b2] => [b64c (b1 / 4), b64c (b1 % 4 * 16 + b2 / 16), b64c (b2 % 16 * 4), '=']
  | [b1] => [b64c (b1 / 4), b64c (b1 % 4 * 16), '=', '=']
  | [] => []

/-- Decode a final `xx==` quantum (one byte). -/
def b64chunk1 (c1 c2 : Char) : List Nat :=
  match b64v c1, b64v c2 with
  | some s1, some s2 => [s1 * 4 + s2 / 16]
  | _, _ => []

/-- Decode a final `xxx=` quantum (two bytes). -/
def b64chunk2 (c1 c2 c3 : Char) : List Nat :=
  match b64v c1, b64v c2, b64v c3 with
  | some s1, some s2, some s3 => [s1 * 4 + s2 / 16, s2 % 16 * 16 + s3 / 4]
  | _, _, _ => []

/-- Base64 decoding; a malformed quantum stops the decode and yields
what was decoded so far, matching the Go partial-result behaviour. -/
def b64decodeChars : List Char → List Nat
  | c1 :: c2 :: c3 :: c4 :: rest =>
      if c3 = '=' then (if c4 = '=' ∧ rest = [] then b64chunk1 c1 c2 else [])
      else if c4 = '=' then (if rest = [] then b64chunk2 c1 c2 c3 else [])
      else
        match b64v c1, b64v c2, b64v c3, b64v c4 with
        | some s1, some s2, some s3, some s4 =>
            (s1 * 4 + s2 / 16) :: (s2 % 16 * 16 + s3 / 4) :: (s3 % 4 * 64 + s4) ::
              b64decodeChars rest
        | _, _, _, _ => []
  | _ => []

/-- `base64.StdEncoding.EncodeToString`. -/
def b64encode (bs : List Nat) : String := String.mk (b64encodeBytes bs)

/-- `base64.StdEncoding.DecodeString`, error value dropped. -/
def b64decode (s : String) : List Nat := b64decodeChars s.data

/-! ### AEAD contract (Go `crypto/cipher` GCM over `crypto/aes`)

The repository composes an AES-256-GCM instance from the standard
library.  That library is outside the repository, so it enters the
embedding as a parameter carrying its documented behaviour: `seal`
produces `ciphertext || tag`, `opn` inverts it under the sealing key
and fails authentication under any other key of the same length. -/

structure AEAD where
  sealFn : List Nat → List Nat → List Nat → List Nat
  opn : List Nat → List Nat → List Nat → Option (List Nat)
  seal_bytes_lt : ∀ key nonce p, (∀ b ∈ key, b < 256) → (∀ b ∈ p, b < 256) →
    ∀ b ∈ sealFn key nonce p, b < 256
  opn_seal : ∀ key nonce p, opn key nonce (sealFn key nonce p) = some p
  opn_seal_wrong_key : ∀ k k' nonce p, k.length = k'.length → k ≠ k' →
    opn k' nonce (sealFn k nonce p) = none

/-- Executable witness instance of the AEAD contract: the tag is the
key itself, appended to the plaintext.  (Cryptographically worthless;
it exists only so contract-parameterised theorems can be evaluated.) -/
def toySeal (key _nonce p : List Nat) : List Nat := p ++ key

/-- Opening for `toySeal`: check and strip the trailing key. -/
def toyOpn (key _nonce c : List Nat) : Option (List Nat) :=
  if key.length ≤ c.length ∧ c.drop (c.length - key.length) = key then
    some (c.take (c.length - key.length))
  else none

/-- `gcm.NonceSize()` for AES-GCM: 12 bytes. -/
def gcmNonceSize : Nat := 12

/-- `cipherKeyCheck` from `dbcrypto.go` (same as `CipherKeyCheck` in
`src/crypto/crypto.go`): empty key is `ErrCipherKeyMissing`, any other
length than 32 is `ErrCipherKeyLength`. -/
def cipherKeyCheck (key : List Nat) : Option Err :=
  if key.length = 0 then some .cipherKeyMissing
  else if key.length ≠ 32 then some .cipherKeyLength
  else none

/-- `encrypt` from `dbcrypto.go` (`Encrypt` in `src/crypto/crypto.go`):
check the key, seal with a fresh nonce (passed explicitly: Go draws it
from `crypto/rand`), return `base64(nonce || ciphertext || tag)`.
`gcm.Seal(nonce, nonce, data, nil)` appends the sealed bytes to the
nonce. -/
def encrypt (g : AEAD) (data key nonce : List Nat) : Except Err String :=
  match cipherKeyCheck key with
  | some e => .error e
  | none => .ok (b64encode (nonce ++ g.sealFn key nonce data))

/-- `decrypt` from `dbcrypto.go` (`Decrypt` in `src/crypto/crypto.go`):
check the key, base64-decode (`ciphertextByte, _ := ...` drops the
decode error), split off the 12-byte nonce — the Go slice
`ciphertextByte[:nonceSize]` panics when fewer than 12 bytes decoded —
and open.  A failed `gcm.Open` is returned as-is. -/
def decrypt (g : AEAD) (data : String) (key : List Nat) : Outcome (List Nat) :=
  match cipherKeyCheck key with
  | some e => .err e
  | none =>
    let ciphertextByte := b64decode data
    if ciphertextByte.length < gcmNonceSize then .panicked
    else
      match g.opn key (ciphertextByte.take gcmNonceSize)
          (ciphertextByte.drop gcmNonceSize) with
      | some plain => .ok plain
      | none => .err .authFailure

/-- Bytes of a string (the Go conversion `[]byte(s)`; modelled at the
level of Unicode scalar values). -/
def strBytes (s : String) : List Nat := s.data.map Char.toNat

/-- String from bytes (the Go conversion `string(bs)`). -/
def bytesToStr (bs : List Nat) : String := String.mk (bs.map (fun b => Char.ofNat b))

/-- `Record.Encrypt` (record helpers): refuse when already encrypted,
otherwise replace the UUID with its sealed base64 form and set the
flag. -/
def recordEncrypt (g : AEAD) (x : Record) (cipherKey nonce : List Nat) :
    Except Err Record :=
  if x.encrypted then .error .encrypted
  else
    match encrypt g (strBytes x.uuid) cipherKey nonce with
    | .error e => .error e
    | .ok encField => .ok { x with uuid := encField, encrypted := true }

/-- `Record.Decrypt` (record helpers): a plaintext record is returned
unchanged; otherwise the UUID field is opened and the flag cleared, any
failure from the crypto layer propagating unchanged. -/
def recordDecrypt (g : AEAD) (x : Record) (cipherKey : List Nat) : Outcome Record :=
  if !x.encrypted then .ok x
  else
    match decrypt g x.uuid cipherKey with
    | .ok plain => .ok { x with uuid := bytesToStr plain, encrypted := false }
    | .err e => .err e
    | .panicked => .panicked

/-- The executable AEAD instance built from `toySeal`/`toyOpn`. -/
def toyAEAD : AEAD where
  sealFn := toySeal
  opn := toyOpn
  seal_bytes_lt := by
    intro key nonce p hk hp b hb
    rcases List.mem_append.mp hb with h | h
    · exact hp b h
    · exact hk b h
  opn_seal := by
    intro key nonce p
    have hlen : (toySeal key nonce p).length = p.length + key.length := by
      simp [toySeal]
    have hdrop : (toySeal key nonce p).drop p.length = key := List.drop_left p key
    have htake : (toySeal key nonce p).take p.length = p := List.take_left p key
    rw [toyOpn, hlen]
    simp only [Nat.add_sub_cancel]
    rw [if_pos]
    · rw [htake]
    · exact ⟨Nat.le_add_left _ _, hdrop⟩
  opn_seal_wrong_key := by
    intro k k' nonce p hlen hne
    have hl : (toySeal k nonce p).length = p.length + k'.length := by
      simp [toySeal, hlen]
    rw [toyOpn, hl]
    simp only [Nat.add_sub_cancel]
    rw [if_neg]
    intro hcon
    have h2 := hcon.2
    rw [show toySeal k nonce p = p ++ k from rfl, List.drop_left] at h2
    exact hne h2

/-! ### The IPFS gateway (`src/ipfs/io.go`)

The go-ipfs node behind `Client` is external; the embedding keeps the
part of its state the database observes: a map from CID to record
payload for DAG-CBOR nodes (`DagPut`/`DagGet`), a map from CID to named
link lists for UnixFS directory nodes (`NewDagNode`, `AddLink`,
`RmLink`, `GetNodeLinks`), a counter minting fresh CIDs for newly
stored nodes, and an online flag.  Network-dependent calls take an
explicit success flag (from `CallEnv`) standing for the error returned
by the node. -/

structure Ipfs where
  dag : List (String × Record)
  dirs : List (String × List (String × String))
  counter : Nat
  online : Bool
  deriving DecidableEq, Repr

/-- CID minted for the `n`-th node stored by this client. -/
def freshCID (n : Nat) : String := "cid-" ++ toString n

/-- Per-call environment: the wall clock, the random nonce drawn for an
encrypting `Set`, whether the pinata env variables are set, and one
success flag per fallible IPFS call. -/
structure CallEnv where
  now : Ts
  nonce : List Nat
  dagPutOk : Bool
  addLinkOk : Bool
  rmLinkOk : Bool
  unpinOk : Bool
  sendOk : Bool
  pinataKeySet : Bool
  pinataSecretSet : Bool
  deriving DecidableEq, Repr

/-- An all-good call environment at time `now`. -/
def goodEnv (now : Ts) : CallEnv :=
  ⟨now, [], true, true, true, true, true, true, true⟩

/-- `Client.DagPut`: store the (JSON-encoded) record as a new DAG node
and return its CID. -/
def Ipfs.dagPut (i : Ipfs) (r : Record) (ok : Bool) : Except Err (Ipfs × String) :=
  if ok then
    .ok ({ i with dag := (freshCID i.counter, r) :: i.dag, counter := i.counter + 1 },
      freshCID i.counter)
  else .error .dagPutFailed

/-- `Client.DagGet` restricted to record nodes: resolve the CID in the
DAG-CBOR store. -/
def Ipfs.dagGet (i : Ipfs) (cid : String) : Except Err Record :=
  match alookup i.dag cid with
  | some r => .ok r
  | none => .error (.dagGetFailed cid)

/-- `Client.NewDagNode`: mint an empty UnixFS directory node. -/
def Ipfs.newDagNode (i : Ipfs) : Ipfs × String :=
  ({ i with dirs := (freshCID i.counter, []) :: i.dirs, counter := i.counter + 1 },
    freshCID i.counter)

/-- `Client.AddLink` (with `Create(true)`): a new directory node equal
to `base` except that the named link points at `child`. -/
def Ipfs.addLink (i : Ipfs) (base child name : String) (ok : Bool) :
    Except Err (Ipfs × String) :=
  if ok then
    let links := (alookup i.dirs base).getD []
    let i' := { i with dirs := (freshCID i.counter, upsert name child links) :: i.dirs,
                       counter := i.counter + 1 }
    .ok (i', freshCID i.counter)
  else .error .addLinkFailed

/-- `Client.RmLink`: a new directory node with the named link removed;
a missing link is an error. -/
def Ipfs.rmLink (i : Ipfs) (base name : String) (ok : Bool) :
    Except Err (Ipfs × String) :=
  if ok then
    let links := (alookup i.dirs base).getD []
    match alookup links name with
    | none => .error .rmLinkFailed
    | some _ =>
      let i' := { i with dirs := (freshCID i.counter, eraseKey name links) :: i.dirs,
                         counter := i.counter + 1 }
      .ok (i', freshCID i.counter)
  else .error .rmLinkFailed

/-- `Client.GetNodeLinks` (`src/ipfs/io.go:95`): enumerate the outgoing
links, except that an empty link list is turned into `ErrNoLinks`. -/
def Ipfs.getNodeLinks (i : Ipfs) (cid : String) : Except Err (List (String × String)) :=
  match alookup i.dirs cid with
  | none => .error (.dagGetFailed cid)
  | some linkList => if linkList.length = 0 then .error .noLinks else .ok linkList

/-- The named links of a directory node as plain data (what the
snapshot encodes, independent of the `GetNodeLinks` empty-list error). -/
def linksOf (i : Ipfs) (cid : String) : List (String × String) :=
  (alookup i.dirs cid).getD []

/-- `Db.getRecordFromCID` (`starkIO.go:187`, identical in the earlier
generation): reject an empty CID, fetch the DAG node (the CBOR check
and JSON unmarshalling succeed for nodes written by `DagPut`), decrypt
when flagged — wrapping a decrypt failure in `ErrEncrypted` — and stamp
the fetched CID into `PreviousCID`. -/
def getRecordFromCID (g : AEAD) (ipfs : Ipfs) (cipherKey : List Nat) (cid : String) :
    Outcome Record :=
  if cid.length = 0 then .err .noCID
  else
    match ipfs.dagGet cid with
    | .error e => .err e
    | .ok record =>
      if record.encrypted then
        match recordDecrypt g record cipherKey with
        | .err e => .err (.encryptedWrap e)
        | .panicked => .panicked
        | .ok r2 => .ok { r2 with previousCID := cid }
      else .ok { record with previousCID := cid }

/-! ### Current-generation database (`Db` of `stark.go:492`)

`V3.Db` carries the fields of the latest `Db` struct; the Go methods
mutate both the receiver and the `*Record` argument in place, so each
embedded operation returns the final database value, the final value of
the caller record, and the returned error (`Outcome Unit`). -/

namespace V3

structure Db where
  ipfs : Ipfs
  project : String
  snapshotCID : String
  pinning : Bool
  announcing : Bool
  cipherKey : List Nat
  cidLookup : List (String × String)
  currentNumEntries : Int
  sessionEntries : Int
  pinataInterval : Int
  deriving DecidableEq, Repr

/-- `Db.GetSnapshot` (`starkIO.go:19`): the empty string when the
database holds no entries, otherwise the snapshot CID. -/
def GetSnapshot (st : Db) : String :=
  if st.currentNumEntries = 0 then "" else st.snapshotCID

/-- `Db.publishAnnouncement` (`starkIO.go:231`). -/
def publishAnnouncement (st : Db) (env : CallEnv) : Option Err :=
  if !st.ipfs.online then some .nodeOffline
  else if st.project.length = 0 then some .noProject
  else if env.sendOk then none else some .publishFailed

/-- Tail of `Db.Set` after the keystore write: bump the counters, run
the pinata branch when the interval divides the session count, then set
`record.PreviousCID = cid` and return the record. -/
def setFinish (st : Db) (record : Record) (cid key : String) (env : CallEnv) :
    Db × Record × Outcome Unit :=
  let st1 := { st with cidLookup := upsert key cid st.cidLookup,
                       currentNumEntries := st.currentNumEntries + 1,
                       sessionEntries := st.sessionEntries + 1 }
  if st1.pinataInterval > 0 ∧ st1.sessionEntries % st1.pinataInterval = 0 then
    if !env.pinataKeySet then (st1, record, .err .pinataKey)
    else if !env.pinataSecretSet then (st1, record, .err .pinataSecret)
    else (st1, { record with previousCID := cid }, .ok ())
  else (st1, { record with previousCID := cid }, .ok ())

/-- Stage of `Db.Set` holding the announcement: on failure the method
returns with the snapshot already replaced but the keystore untouched. -/
def setAnnounce (st : Db) (record : Record) (cid key : String) (env : CallEnv) :
    Db × Record × Outcome Unit :=
  if st.announcing then
    match publishAnnouncement st env with
    | some e => (st, record, .err e)
    | none => setFinish st record cid key env
  else setFinish st record cid key env

/-- Stage of `Db.Set` from the JSON marshal on: `DagPut` the record,
`AddLink` it under `key` in the project directory (failure wrapped in
`ErrSnapshotUpdate`), replace the snapshot CID, then announce. -/
def setStore (st : Db) (record : Record) (key : String) (env : CallEnv) :
    Db × Record × Outcome Unit :=
  match st.ipfs.dagPut record env.dagPutOk with
  | .error e => (st, record, .err e)
  | .ok (ipfs1, cid) =>
    let st1 := { st with ipfs := ipfs1 }
    match ipfs1.addLink st.snapshotCID cid key env.addLinkOk with
    | .error e => (st1, record, .err (.snapshotUpdate e))
    | .ok (ipfs2, snapshotUpdate) =>
      let st2 := { st1 with ipfs := ipfs2, snapshotCID := snapshotUpdate }
      setAnnounce st2 record cid key env

/-- Stage of `Db.Set` shared by the new-key and update paths: add the
"adding record" comment and encrypt if the database has a cipher key
and the record is not yet encrypted. -/
def setEncode (g : AEAD) (st : Db) (record0 : Record) (key : String) (env : CallEnv) :
    Db × Record × Outcome Unit :=
  let record := record0.addComment "Set: adding record to IPFS." env.now
  if st.cipherKey.length ≠ 0 ∧ !record.encrypted then
    match recordEncrypt g record st.cipherKey env.nonce with
    | .error e => (st, record, .err e)
    | .ok record2 => setStore st record2 key env
  else setStore st record key env

/-- `Db.Set` of the current generation: the lookup key is the record
alias; a key already in the keystore must pass the UUID, previous-CID
and timestamp checks before the stored record is replaced. -/
def Set (g : AEAD) (st : Db) (env : CallEnv) (record : Record) :
    Db × Record × Outcome Unit :=
  let key := record.alias_
  if key.length = 0 then (st, record, .err .noKey)
  else
    match alookup st.cidLookup key with
    | some existingCID =>
      match getRecordFromCID g st.ipfs st.cipherKey existingCID with
      | .err e => (st, record, .err e)
      | .panicked => (st, record, .panicked)
      | .ok existingRecord =>
        if existingRecord.uuid ≠ record.uuid then (st, record, .err .attemptedOverwrite)
        else if existingCID ≠ record.previousCID then (st, record, .err .recordHistory)
        else if !CheckTimeStamp existingRecord.lastUpdatedTimestamp
            record.lastUpdatedTimestamp then
          (st, record, .err .attemptedUpdate)
        else setEncode g st (record.addComment "Set: updating record." env.now) key env
    | none => setEncode g st record key env

/-- `Db.Delete` (`starkIO.go:155`): look the key up, `RmLink` it from
the project directory (failure wrapped in `ErrSnapshotUpdate`), replace
the snapshot, unpin the record — returning on failure with the keystore
not yet updated — then drop the key and decrement the entry count. -/
def Delete (st : Db) (env : CallEnv) (key : String) : Db × Outcome Unit :=
  match alookup st.cidLookup key with
  | none => (st, .err (.notFound key))
  | some _cid =>
    match st.ipfs.rmLink st.snapshotCID key env.rmLinkOk with
    | .error e => (st, .err (.snapshotUpdate e))
    | .ok (ipfs1, snapshotUpdate) =>
      let st1 := { st with ipfs := ipfs1, snapshotCID := snapshotUpdate }
      if !env.unpinOk then (st1, .err .unpinFailed)
      else
        let st2 := { st1 with cidLookup := eraseKey key st1.cidLookup,
                              currentNumEntries := st1.currentNumEntries - 1 }
        (st2, .ok ())

end V3

/-! ### Earlier-generation database (`Db.Set(key, record)` with the
`maxEntries` cap) -/

namespace V2

structure Db where
  ipfs : Ipfs
  project : String
  snapshotCID : String
  pinning : Bool
  announcing : Bool
  cipherKey : List Nat
  cidLookup : List (String × String)
  currentNumEntries : Int
  maxEntries : Int
  deriving DecidableEq, Repr

/-- `Db.GetSnapshot` of the earlier generation (same body as
`starkIO.go:19`). -/
def GetSnapshot (st : Db) : String :=
  if st.currentNumEntries = 0 then "" else st.snapshotCID

/-- `Db.publishAnnouncement` of the earlier generation (same body). -/
def publishAnnouncement (st : Db) (env : CallEnv) : Option Err :=
  if !st.ipfs.online then some .nodeOffline
  else if st.project.length = 0 then some .noProject
  else if env.sendOk then none else some .publishFailed

/-- Tail of the earlier-generation `Db.Set` after the version checks: add
the "adding record" comment, encrypt if needed, `DagPut`, `AddLink`,
announce, then write the keystore and bump the entry count.  The
count is bumped for every successful `Set`, updates included, and
`record.PreviousCID` is not written back. -/
def setTail (g : AEAD) (st : Db) (record0 : Record) (key : String) (env : CallEnv) :
    Db × Record × Outcome Unit :=
  let record := record0.addComment "Set: adding record to IPFS." env.now
  match (if st.cipherKey.length ≠ 0 ∧ !record.encrypted then
      recordEncrypt g record st.cipherKey env.nonce
    else .ok record) with
  | .error e => (st, record, .err e)
  | .ok record2 =>
    match st.ipfs.dagPut record2 env.dagPutOk with
    | .error e => (st, record2, .err e)
    | .ok (ipfs1, cid) =>
      let st1 := { st with ipfs := ipfs1 }
      match ipfs1.addLink st.snapshotCID cid key env.addLinkOk with
      | .error e => (st1, record2, .err (.snapshotUpdate e))
      | .ok (ipfs2, snapshotUpdate) =>
        let st2 := { st1 with ipfs := ipfs2, snapshotCID := snapshotUpdate }
        let store : Db × Record × Outcome Unit :=
          ({ st2 with cidLookup := upsert key cid st2.cidLookup,
                      currentNumEntries := st2.currentNumEntries + 1 },
            record2, .ok ())
        if st2.announcing then
          match publishAnnouncement st2 env with
          | some e => (st2, record2, .err e)
          | none => store
        else store

/-- `Db.Set(key, record)` of the earlier generation: the `maxEntries`
gate is checked first, before the key is inspected at all, and then the
same UUID / previous-CID / timestamp checks as in the current
generation guard updates. -/
def Set (g : AEAD) (st : Db) (env : CallEnv) (key : String) (record : Record) :
    Db × Record × Outcome Unit :=
  if st.currentNumEntries = st.maxEntries then (st, record, .err .maxEntriesExceeded)
  else
    match alookup st.cidLookup key with
    | some existingCID =>
      match getRecordFromCID g st.ipfs st.cipherKey existingCID with
      | .err e => (st, record, .err e)
      | .panicked => (st, record, .panicked)
      | .ok existingRecord =>
        if existingRecord.uuid ≠ record.uuid then (st, record, .err .attemptedOverwrite)
        else if existingCID ≠ record.previousCID then (st, record, .err .recordHistory)
        else if !CheckTimeStamp existingRecord.lastUpdatedTimestamp
            record.lastUpdatedTimestamp then
          (st, record, .err .attemptedUpdate)
        else setTail g st (record.addComment "Set: updating record." env.now) key env
    | none => setTail g st record key env

/-- `Db.Get(key)` of the earlier generation. -/
def Get (g : AEAD) (st : Db) (key : String) : Outcome Record :=
  match alookup st.cidLookup key with
  | none => .err (.notFound key)
  | some cid => getRecordFromCID g st.ipfs st.cipherKey cid

/-- `Db.Delete` of the earlier generation (same body as
`starkIO.go:155`). -/
def Delete (st : Db) (env : CallEnv) (key : String) : Db × Outcome Unit :=
  match alookup st.cidLookup key with
  | none => (st, .err (.notFound key))
  | some _cid =>
    match st.ipfs.rmLink st.snapshotCID key env.rmLinkOk with
    | .error e => (st, .err (.snapshotUpdate e))
    | .ok (ipfs1, snapshotUpdate) =>
      let st1 := { st with ipfs := ipfs1, snapshotCID := snapshotUpdate }
      if !env.unpinOk then (st1, .err .unpinFailed)
      else
        let st2 := { st1 with cidLookup := eraseKey key st1.cidLookup,
                              currentNumEntries := st1.currentNumEntries - 1 }
        (st2, .ok ())

end V2

/-! ### The Listen loop (`starkIO.go:87`) and snapshot opening
(`starkInit.go:170`) -/

/-- One arrival in the `select` of the Listen goroutine: a pubsub message
(CID bytes, sender, and the wall clock when the comment is stamped), an
error from the pubsub error channel, or the terminator (with the
success of the closing `Unsubscribe`). -/
inductive PSEvent where
  | msg (data : String) (sender : String) (now : Ts)
  | psErr (e : Err)
  | term (unsubOk : Bool)
  deriving DecidableEq, Repr

/-- The body of the `Db.Listen` goroutine, run over a finite schedule of
events: `cidTracker` skips CIDs already seen; a fetched record gets the
"collected from ... via pubsub." comment and goes to the record
channel; fetch errors go to the error channel and the loop continues;
the terminator unsubscribes and closes both channels.  The result is
the pair (record channel contents, error channel contents). -/
def listenLoop (g : AEAD) (ipfs : Ipfs) (cipherKey : List Nat) :
    List PSEvent → List String → List Record × List Err
  | [], _ => ([], [])
  | PSEvent.msg data sender now :: rest, cidTracker =>
    if data ∈ cidTracker then listenLoop g ipfs cipherKey rest cidTracker
    else
      match getRecordFromCID g ipfs cipherKey data with
      | .err e =>
        let out := listenLoop g ipfs cipherKey rest (data :: cidTracker)
        (out.1, e :: out.2)
      | .panicked => ([], [])
      | .ok collectedRecord =>
        let out := listenLoop g ipfs cipherKey rest (data :: cidTracker)
        ((collectedRecord.addComment
            ("collected from " ++ sender ++ " via pubsub.") now) :: out.1,
          out.2)
  | PSEvent.psErr e :: rest, cidTracker =>
    let out := listenLoop g ipfs cipherKey rest cidTracker
    (out.1, e :: out.2)
  | PSEvent.term unsubOk :: _, _ =>
    ([], if unsubOk then [] else [.noSub])

/-- The snapshot-initialisation step of `OpenDB` (`starkInit.go:170`):
with no snapshot CID, mint an empty directory node and leave the index
empty; with one, ask `GetNodeLinks` — wrapping any failure, including
`ErrNoLinks` for an empty directory, in `ErrInvalidSnapshot` — and
populate the index from the links.  Returns the client, the snapshot
CID, the index, and `currentNumEntries = len(cidLookup)`. -/
def openDbSnapshot (ipfs : Ipfs) (snapshotCID : String) :
    Except Err (Ipfs × String × List (String × String) × Int) :=
  if snapshotCID.length = 0 then
    let made := ipfs.newDagNode
    .ok (made.1, made.2, [], 0)
  else
    match ipfs.getNodeLinks snapshotCID with
    | .error e => .error (.invalidSnapshot e)
    | .ok links => .ok (ipfs, snapshotCID, links, (links.length : Int))

/-- Agreement between the snapshot DAG node and the in-memory index:
the links of the snapshot node resolve every name exactly as the
`cidLookup` map does. -/
def V3.agrees (st : V3.Db) : Prop :=
  ∀ n, alookup (linksOf st.ipfs st.snapshotCID) n = alookup st.cidLookup n

/-! ### Concrete fixtures

Small closed databases, records and keys used to evaluate the theorems
below on explicit inputs. -/

/-- A record fresh out of `NewRecord`: a UUID, an alias, and the
"record created." comment. -/
def mkRec (u al : String) : Record :=
  { uuid := u, previousCID := "", history := [⟨⟨0, 0⟩, "record created.", ""⟩],
    encrypted := false, alias_ := al, description := "",
    linkedSamples := [], linkedLibraries := [], barcodes := [] }

/-- Stored version of a record under key "k": one more comment. -/
def fxStored : Record :=
  { mkRec "u1" "k" with
    history := [⟨⟨0, 0⟩, "record created.", ""⟩,
                ⟨⟨1, 0⟩, "Set: adding record to IPFS.", ""⟩] }

/-- Current-generation database holding `fxStored` at CID "c0" under
key "k". -/
def fxDb : V3.Db :=
  { ipfs := { dag := [("c0", fxStored)], dirs := [("d0", [("k", "c0")])],
              counter := 1, online := true },
    project := "p", snapshotCID := "d0", pinning := true, announcing := false,
    cipherKey := [], cidLookup := [("k", "c0")], currentNumEntries := 1,
    sessionEntries := 1, pinataInterval := 0 }

/-- A caller record that is a valid update of `fxStored`: same UUID,
`previousCID` pointing at the stored CID, and a later timestamp. -/
def fxUpdate : Record :=
  { mkRec "u1" "k" with
    previousCID := "c0",
    history := [⟨⟨0, 0⟩, "record created.", ""⟩,
                ⟨⟨1, 0⟩, "Set: adding record to IPFS.", ""⟩,
                ⟨⟨2, 0⟩, "tweak", "c0"⟩] }

/-- Empty announcing database whose pubsub send will fail. -/
def fxAnnDb : V3.Db :=
  { ipfs := { dag := [], dirs := [("d0", [])], counter := 1, online := true },
    project := "p", snapshotCID := "d0", pinning := true, announcing := true,
    cipherKey := [], cidLookup := [], currentNumEntries := 0,
    sessionEntries := 0, pinataInterval := 0 }

/-- The same database without announcing, for successful runs. -/
def fxQuietDb : V3.Db := { fxAnnDb with announcing := false }

/-- Earlier-generation database at its `maxEntries` cap with "k" the
sole (and existing) key. -/
def fxFullDb : V2.Db :=
  { ipfs := { dag := [("c0", fxStored)], dirs := [("d0", [("k", "c0")])],
              counter := 1, online := true },
    project := "p", snapshotCID := "d0", pinning := true, announcing := false,
    cipherKey := [], cidLookup := [("k", "c0")], currentNumEntries := 1,
    maxEntries := 1 }

/-- Earlier-generation empty database with headroom. -/
def fxV2Db : V2.Db :=
  { ipfs := { dag := [], dirs := [("d0", [])], counter := 1, online := true },
    project := "p", snapshotCID := "d0", pinning := true, announcing := false,
    cipherKey := [], cidLookup := [], currentNumEntries := 0, maxEntries := 10 }

/-- Trace for the update-in-place counting bug: create "k"... -/
def bugStep1 : V2.Db × Record × Outcome Unit :=
  V2.Set toyAEAD fxV2Db (goodEnv ⟨1, 0⟩) "k" (mkRec "u1" "rec one")

/-- ... fetch it back and touch it at a later timestamp ... -/
def bugUpdateRec : Record :=
  match V2.Get toyAEAD bugStep1.1 "k" with
  | .ok r => r.addComment "tweak" ⟨2, 0⟩
  | _ => default

/-- ... update it in place under the same key ... -/
def bugStep2 : V2.Db × Record × Outcome Unit :=
  V2.Set toyAEAD bugStep1.1 (goodEnv ⟨3, 0⟩) "k" bugUpdateRec

/-- ... and delete the sole entry. -/
def bugStep3 : V2.Db × Outcome Unit :=
  V2.Delete bugStep2.1 (goodEnv ⟨4, 0⟩) "k"

/-- IPFS state holding an empty directory node "d0" and a directory
"d1" with one link. -/
def fxDirIpfs : Ipfs :=
  { dag := [], dirs := [("d0", []), ("d1", [("k", "c1")])], counter := 0,
    online := true }

/-- Plaintext bytes for the crypto fixtures ("hello"). -/
def fxPlain : List Nat := [104, 101, 108, 108, 111]

/-- A valid 32-byte key. -/
def fxKey1 : List Nat := List.replicate 32 1

/-- A different valid 32-byte key. -/
def fxKey2 : List Nat := List.replicate 32 2

/-- A 12-byte nonce. -/
def fxNonce : List Nat := List.replicate 12 9

/-- Ciphertext of `fxPlain` under `fxKey1` with `fxNonce`, as the
`encrypt` of the toy instance produces it. -/
def fxCipher : String := b64encode (fxNonce ++ toySeal fxKey1 fxNonce fxPlain)

/-- Environment whose pubsub send fails. -/
def fxSendFailEnv : CallEnv := { goodEnv ⟨5, 0⟩ with sendOk := false }

/-- A `Set` on the announcing database whose announcement fails after
the snapshot was already replaced. -/
def fxSetFail : V3.Db × Record × Outcome Unit :=
  V3.Set toyAEAD fxAnnDb fxSendFailEnv (mkRec "u1" "a")

/-- Environment whose unpin fails. -/
def fxUnpinFailEnv : CallEnv := { goodEnv ⟨6, 0⟩ with unpinOk := false }

/-- A `Delete` whose unpin fails after the snapshot was already
replaced. -/
def fxDelFail : V3.Db × Outcome Unit := V3.Delete fxDb fxUnpinFailEnv "k"

/-- A plainly successful `Set` of a fresh record on the quiet empty
database. -/
def fxSetOk : V3.Db × Record × Outcome Unit :=
  V3.Set toyAEAD fxQuietDb (goodEnv ⟨1, 0⟩) (mkRec "u1" "k")

/-! ## Supporting lemmas -/

/-- The base64 alphabet tables invert each other, and no alphabet
character is the padding character. -/
theorem b64_char_spec (s : Nat) (h : s < 64) : b64v (b64c s) = some s ∧ b64c s ≠ '=' := by
  interval_cases s <;> exact ⟨by decide, by decide⟩

/-- Decoding inverts encoding on byte lists. -/
theorem b64decode_encode :
    ∀ bs : List Nat, (∀ b ∈ bs, b < 256) → b64decodeChars (b64encodeBytes bs) = bs := by
  intro bs
  induction bs using b64encodeBytes.induct with
  | case1 b1 b2 b3 rest ih =>
    intro h
    have hb1 : b1 < 256 := h b1 (by simp)
    have hb2 : b2 < 256 := h b2 (by simp)
    have hb3 : b3 < 256 := h b3 (by simp)
    have h1 := b64_char_spec (b1 / 4) (by omega)
    have h2 := b64_char_spec (b1 % 4 * 16 + b2 / 16) (by omega)
    have h3 := b64_char_spec (b2 % 16 * 4 + b3 / 64) (by omega)
    have h4 := b64_char_spec (b3 % 64) (by omega)
    have htail : ∀ b ∈ rest, b < 256 := fun b hb => h b (by simp [hb])
    rw [b64encodeBytes, b64decodeChars, if_neg h3.2, if_neg h4.2,
      h1.1, h2.1, h3.1, h4.1]
    show (b1 / 4 * 4 + (b1 % 4 * 16 + b2 / 16) / 16) ::
        ((b1 % 4 * 16 + b2 / 16) % 16 * 16 + (b2 % 16 * 4 + b3 / 64) / 4) ::
        ((b2 % 16 * 4 + b3 / 64) % 4 * 64 + b3 % 64) ::
        b64decodeChars (b64encodeBytes rest) = b1 :: b2 :: b3 :: rest
    rw [ih htail]
    congr 1
    · omega
    congr 1
    · omega
    congr 1
    omega
  | case2 b1 b2 =>
    intro h
    have hb1 : b1 < 256 := h b1 (by simp)
    have hb2 : b2 < 256 := h b2 (by simp)
    have h1 := b64_char_spec (b1 / 4) (by omega)
    have h2 := b64_char_spec (b1 % 4 * 16 + b2 / 16) (by omega)
    have h3 := b64_char_spec (b2 % 16 * 4) (by omega)
    rw [b64encodeBytes, b64decodeChars, if_neg h3.2, if_pos rfl, if_pos rfl]
    rw [b64chunk2, h1.1, h2.1, h3.1]
    show [b1 / 4 * 4 + (b1 % 4 * 16 + b2 / 16) / 16,
      (b1 % 4 * 16 + b2 / 16) % 16 * 16 + b2 % 16 * 4 / 4] = [b1, b2]
    congr 1
    · omega
    congr 1
    omega
  | case3 b1 =>
    intro h
    have hb1 : b1 < 256 := h b1 (by simp)
    have h1 := b64_char_spec (b1 / 4) (by omega)
    have h2 := b64_char_spec (b1 % 4 * 16) (by omega)
    rw [b64encodeBytes, b64decodeChars, if_pos rfl, if_pos (by exact ⟨rfl, rfl⟩)]
    rw [b64chunk1, h1.1, h2.1]
    show [b1 / 4 * 4 + b1 % 4 * 16 / 16] = [b1]
    congr 1
    omega
  | case4 =>
    intro _
    rfl

/-- String-level inversion. -/
theorem b64decode_b64encode (bs : List Nat) (h : ∀ b ∈ bs, b < 256) :
    b64decode (b64encode bs) = bs :=
  b64decode_encode bs h

/-- Behaviour of `decrypt` on the exact frame `encrypt` emits: with a
well-formed 32-byte key and 12-byte nonce, decryption reduces to the
AEAD open of the sealed payload. -/
theorem decrypt_frame (g : AEAD) (key nonce sealed : List Nat)
    (hk : key.length = 32) (hn : nonce.length = 12)
    (hb : ∀ b ∈ nonce ++ sealed, b < 256) :
    decrypt g (b64encode (nonce ++ sealed)) key =
      match g.opn key nonce sealed with
      | some plain => .ok plain
      | none => .err .authFailure := by
  have hchk : cipherKeyCheck key = none := by
    rw [cipherKeyCheck, if_neg (by omega), if_neg (by omega)]
  have hdec : b64decode (b64encode (nonce ++ sealed)) = nonce ++ sealed :=
    b64decode_b64encode _ hb
  rw [decrypt, hchk]
  simp only [hdec, gcmNonceSize]
  rw [if_neg (by simp [List.length_append]; omega)]
  rw [List.take_left' hn, List.drop_left' hn]

/-! ## Claim theorems: crypto helper -/

/-- C8: encryption round-trip.  For every byte string, every valid
32-byte key and every 12-byte nonce, `encrypt` produces
`base64(nonce || ciphertext || tag)` and `decrypt` with the same key
returns the plaintext. -/
theorem encrypt_decrypt_roundtrip (g : AEAD) (data key nonce : List Nat)
    (hk : key.length = 32) (hn : nonce.length = 12)
    (hd : ∀ b ∈ data, b < 256) (hkb : ∀ b ∈ key, b < 256)
    (hnb : ∀ b ∈ nonce, b < 256) :
    encrypt g data key nonce = .ok (b64encode (nonce ++ g.sealFn key nonce data)) ∧
    decrypt g (b64encode (nonce ++ g.sealFn key nonce data)) key = .ok data := by
  have hchk : cipherKeyCheck key = none := by
    rw [cipherKeyCheck, if_neg (by omega), if_neg (by omega)]
  refine ⟨by rw [encrypt, hchk], ?_⟩
  have hb : ∀ b ∈ nonce ++ g.sealFn key nonce data, b < 256 := by
    intro b hb
    rcases List.mem_append.mp hb with h | h
    · exact hnb b h
    · exact g.seal_bytes_lt key nonce data hkb hd b h
  rw [decrypt_frame g key nonce _ hk hn hb, g.opn_seal]

/-- Witness for C8 at concrete plaintext, key and nonce. -/
theorem encrypt_decrypt_roundtrip_witness :
    encrypt toyAEAD fxPlain fxKey1 fxNonce =
      .ok (b64encode (fxNonce ++ toyAEAD.sealFn fxKey1 fxNonce fxPlain)) ∧
    decrypt toyAEAD (b64encode (fxNonce ++ toyAEAD.sealFn fxKey1 fxNonce fxPlain))
      fxKey1 = .ok fxPlain :=
  encrypt_decrypt_roundtrip toyAEAD fxPlain fxKey1 fxNonce (by decide) (by decide)
    (by decide) (by decide) (by decide)

/-- C6 (amended): decrypting under a different 32-byte key fails, but
the failure is the authentication error of the cipher propagated
unchanged — not `ErrCipherPasswordMismatch`. -/
theorem decrypt_wrong_key_fails (g : AEAD) (data k1 k2 nonce : List Nat)
    (hk1 : k1.length = 32) (hk2 : k2.length = 32) (hn : nonce.length = 12)
    (hne : k1 ≠ k2) (hd : ∀ b ∈ data, b < 256) (hk1b : ∀ b ∈ k1, b < 256)
    (hnb : ∀ b ∈ nonce, b < 256) :
    encrypt g data k1 nonce = .ok (b64encode (nonce ++ g.sealFn k1 nonce data)) ∧
    decrypt g (b64encode (nonce ++ g.sealFn k1 nonce data)) k2 = .err .authFailure := by
  have hchk : cipherKeyCheck k1 = none := by
    rw [cipherKeyCheck, if_neg (by omega), if_neg (by omega)]
  refine ⟨by rw [encrypt, hchk], ?_⟩
  have hb : ∀ b ∈ nonce ++ g.sealFn k1 nonce data, b < 256 := by
    intro b hb
    rcases List.mem_append.mp hb with h | h
    · exact hnb b h
    · exact g.seal_bytes_lt k1 nonce data hk1b hd b h
  rw [decrypt_frame g k2 nonce _ hk2 hn hb,
    g.opn_seal_wrong_key k1 k2 nonce data (hk1.trans hk2.symm) hne]

/-- Witness for the amended C6 at concrete keys. -/
theorem decrypt_wrong_key_fails_witness :
    encrypt toyAEAD fxPlain fxKey1 fxNonce =
      .ok (b64encode (fxNonce ++ toyAEAD.sealFn fxKey1 fxNonce fxPlain)) ∧
    decrypt toyAEAD (b64encode (fxNonce ++ toyAEAD.sealFn fxKey1 fxNonce fxPlain))
      fxKey2 = .err .authFailure :=
  decrypt_wrong_key_fails toyAEAD fxPlain fxKey1 fxKey2 fxNonce (by decide) (by decide)
    (by decide) (by decide) (by decide) (by decide) (by decide)

/-- Counterexample for C6 as stated: at a concrete plaintext and pair
of distinct valid keys, the wrong-key decryption failure is the
authentication error, not `ErrCipherPasswordMismatch` (which no code
path returns). -/
theorem wrong_key_error_counterexample :
    decrypt toyAEAD fxCipher fxKey2 = .err .authFailure ∧
    decrypt toyAEAD fxCipher fxKey2 ≠ .err .cipherPasswordMismatch := by
  constructor
  · rfl
  · intro h
    exact absurd (rfl.symm.trans h) (by decide)

/-- C10: `decrypt` is not total — whenever the base64 decode of the
input yields fewer bytes than the 12-byte GCM nonce (the decode error
itself being discarded), the nonce slice panics instead of returning an
error. -/
theorem decrypt_short_input_panics (g : AEAD) (key : List Nat) (data : String)
    (hk : key.length = 32) (hshort : (b64decode data).length < gcmNonceSize) :
    decrypt g data key = .panicked := by
  have hchk : cipherKeyCheck key = none := by
    rw [cipherKeyCheck, if_neg (by omega), if_neg (by omega)]
  rw [decrypt, hchk]
  exact if_pos hshort

/-- Witness for C10: the empty-string ciphertext with a valid 32-byte
key panics. -/
theorem decrypt_short_input_panics_witness :
    decrypt toyAEAD "" (List.replicate 32 0) = .panicked :=
  decrypt_short_input_panics toyAEAD (List.replicate 32 0) "" (by decide)
    (by rw [show b64decode "" = [] from rfl]; decide)

/-! ## Claim theorems: node links and snapshot opening -/

/-- Counterexample for C5 as stated: `GetNodeLinks` on a reachable but
empty directory node is an error (`ErrNoLinks`), and opening a database
from that snapshot CID fails with `ErrInvalidSnapshot` instead of
populating an empty index. -/
theorem empty_links_counterexample :
    fxDirIpfs.getNodeLinks "d0" = .error .noLinks ∧
    openDbSnapshot fxDirIpfs "d0" = .error (.invalidSnapshot .noLinks) :=
  ⟨rfl, rfl⟩

/-- C5 (amended): `GetNodeLinks` on a reachable directory node returns
its links only when there is at least one; an empty node yields
`ErrNoLinks`, and `OpenDB` turns that into `ErrInvalidSnapshot`, while
a non-empty node populates the index with exactly the links. -/
theorem get_node_links_spec (i : Ipfs) (cid : String) (links : List (String × String))
    (hfound : alookup i.dirs cid = some links) (hcid : cid.length ≠ 0) :
    (links = [] → i.getNodeLinks cid = .error .noLinks ∧
      openDbSnapshot i cid = .error (.invalidSnapshot .noLinks)) ∧
    (links ≠ [] → i.getNodeLinks cid = .ok links ∧
      openDbSnapshot i cid = .ok (i, cid, links, (links.length : Int))) := by
  have hlinks : i.getNodeLinks cid =
      if links.length = 0 then .error .noLinks else .ok links := by
    unfold Ipfs.getNodeLinks
    rw [hfound]
  constructor
  · intro hnil
    subst hnil
    refine ⟨by simpa using hlinks, ?_⟩
    rw [openDbSnapshot, if_neg hcid]
    rw [show i.getNodeLinks cid = .error .noLinks from by simpa using hlinks]
  · intro hne
    have hok : i.getNodeLinks cid = .ok links := by
      rw [hlinks, if_neg (by simpa [List.length_eq_zero] using hne)]
    refine ⟨hok, ?_⟩
    rw [openDbSnapshot, if_neg hcid, hok]

/-- Witness for the amended C5 at a concrete one-link directory. -/
theorem get_node_links_spec_witness :
    fxDirIpfs.getNodeLinks "d1" = .ok [("k", "c1")] ∧
    openDbSnapshot fxDirIpfs "d1" = .ok (fxDirIpfs, "d1", [("k", "c1")], 1) :=
  (get_node_links_spec fxDirIpfs "d1" [("k", "c1")] rfl (by decide)).2 (by decide)

/-! ## Supporting lemmas: association lists and the `Set`/`Delete`
success paths -/

theorem alookup_upsert_self {α : Type} (key : String) (v : α) (l : List (String × α)) :
    alookup (upsert key v l) key = some v := by
  induction l with
  | nil => simp [upsert, alookup]
  | cons p rest ih =>
    obtain ⟨k, w⟩ := p
    by_cases hk : k = key
    · subst hk
      simp [upsert, alookup]
    · simp [upsert, hk, alookup, ih]

theorem alookup_upsert_ne {α : Type} (key n : String) (v : α) (l : List (String × α))
    (h : key ≠ n) : alookup (upsert key v l) n = alookup l n := by
  induction l with
  | nil => simp [upsert, alookup, h]
  | cons p rest ih =>
    obtain ⟨k, w⟩ := p
    by_cases hk : k = key
    · subst hk
      simp [upsert, alookup, h, ih]
    · simp only [upsert, if_neg hk, alookup]
      by_cases hn : k = n
      · simp [hn]
      · simp [hn, ih]

theorem alookup_erase_self {α : Type} (key : String) (l : List (String × α)) :
    alookup (eraseKey key l) key = none := by
  induction l with
  | nil => rfl
  | cons p rest ih =>
    obtain ⟨k, w⟩ := p
    by_cases hk : k = key
    · simp [eraseKey, hk, ih]
    · simp [eraseKey, hk, alookup, ih]

theorem alookup_erase_ne {α : Type} (key n : String) (l : List (String × α))
    (h : key ≠ n) : alookup (eraseKey key l) n = alookup l n := by
  induction l with
  | nil => rfl
  | cons p rest ih =>
    obtain ⟨k, w⟩ := p
    by_cases hk : k = key
    · subst hk
      have hkn : k ≠ n := h
      simp [eraseKey, alookup, ih, hkn]
    · by_cases hn : k = n
      · subst hn
        simp [eraseKey, hk, alookup]
      · simp [eraseKey, hk, hn, alookup, ih]

/-- All branches of `setFinish` that return without error leave the
state with the keystore updated and the counters bumped. -/
theorem setFinish_ok_proj (st : V3.Db) (env : CallEnv) (rec : Record) (cid key : String)
    (st' : V3.Db) (rec' : Record)
    (h : V3.setFinish st rec cid key env = (st', rec', .ok ())) :
    st'.ipfs = st.ipfs ∧ st'.snapshotCID = st.snapshotCID ∧
    st'.cidLookup = upsert key cid st.cidLookup ∧
    st'.currentNumEntries = st.currentNumEntries + 1 := by
  unfold V3.setFinish at h
  dsimp only at h
  split at h
  · split at h
    · simp at h
    · split at h
      · simp at h
      · simp only [Prod.mk.injEq] at h
        rw [← h.1]
        exact ⟨rfl, rfl, rfl, rfl⟩
  · simp only [Prod.mk.injEq] at h
    rw [← h.1]
    exact ⟨rfl, rfl, rfl, rfl⟩

/-- `setAnnounce` succeeding implies `setFinish` succeeded with the
same output. -/
theorem setAnnounce_ok_proj (st : V3.Db) (env : CallEnv) (rec : Record) (cid key : String)
    (st' : V3.Db) (rec' : Record)
    (h : V3.setAnnounce st rec cid key env = (st', rec', .ok ())) :
    st'.ipfs = st.ipfs ∧ st'.snapshotCID = st.snapshotCID ∧
    st'.cidLookup = upsert key cid st.cidLookup ∧
    st'.currentNumEntries = st.currentNumEntries + 1 := by
  unfold V3.setAnnounce at h
  split at h
  · split at h
    · simp at h
    · exact setFinish_ok_proj _ _ _ _ _ _ _ h
  · exact setFinish_ok_proj _ _ _ _ _ _ _ h

/-- A successful `setStore` stored the record under a fresh CID, hung
that CID off the snapshot under `key` and mirrored it in the index. -/
theorem setStore_ok_eq (st : V3.Db) (env : CallEnv) (rec : Record) (key : String)
    (st' : V3.Db) (rec' : Record)
    (h : V3.setStore st rec key env = (st', rec', .ok ())) :
    ∃ cid, linksOf st'.ipfs st'.snapshotCID =
        upsert key cid (linksOf st.ipfs st.snapshotCID) ∧
      st'.cidLookup = upsert key cid st.cidLookup := by
  unfold V3.setStore at h
  split at h
  · simp at h
  · rename_i ipfs1 cid heq
    split at h
    · simp at h
    · rename_i ipfs2 snap heq2
      dsimp only at h
      obtain ⟨hipfs, hsnap, hlookup, -⟩ := setAnnounce_ok_proj _ _ _ _ _ _ _ h
      dsimp only at hipfs hsnap hlookup
      unfold Ipfs.dagPut at heq
      split at heq
      · simp only [Except.ok.injEq, Prod.mk.injEq] at heq
        obtain ⟨hipfs1, hcid⟩ := heq
        unfold Ipfs.addLink at heq2
        split at heq2
        · simp only [Except.ok.injEq, Prod.mk.injEq] at heq2
          obtain ⟨hipfs2, hsnap2⟩ := heq2
          refine ⟨cid, ?_, by rw [hlookup]⟩
          rw [linksOf, hipfs, hsnap, ← hipfs2, ← hsnap2]
          dsimp only
          rw [alookup, if_pos rfl]
          rw [← hipfs1]
          dsimp only
          rfl
        · exact absurd heq2 (by simp)
      · exact absurd heq (by simp)

/-- A successful `setEncode` behaves like a successful `setStore` as
far as snapshot links and index go. -/
theorem setEncode_ok_eq (g : AEAD) (st : V3.Db) (env : CallEnv) (rec : Record)
    (key : String) (st' : V3.Db) (rec' : Record)
    (h : V3.setEncode g st rec key env = (st', rec', .ok ())) :
    ∃ cid, linksOf st'.ipfs st'.snapshotCID =
        upsert key cid (linksOf st.ipfs st.snapshotCID) ∧
      st'.cidLookup = upsert key cid st.cidLookup := by
  unfold V3.setEncode at h
  dsimp only at h
  split at h
  · split at h
    · simp at h
    · exact setStore_ok_eq _ _ _ _ _ _ h
  · exact setStore_ok_eq _ _ _ _ _ _ h

/-- A successful `V3.Set` updated the snapshot links and the index by
the same `(key, cid)` write. -/
theorem Set_ok_eq (g : AEAD) (st : V3.Db) (env : CallEnv) (rec : Record)
    (st' : V3.Db) (rec' : Record)
    (h : V3.Set g st env rec = (st', rec', .ok ())) :
    ∃ key cid, linksOf st'.ipfs st'.snapshotCID =
        upsert key cid (linksOf st.ipfs st.snapshotCID) ∧
      st'.cidLookup = upsert key cid st.cidLookup := by
  unfold V3.Set at h
  dsimp only at h
  split at h
  · simp at h
  · split at h
    · split at h
      · simp at h
      · simp at h
      · split at h
        · simp at h
        · split at h
          · simp at h
          · split at h
            · simp at h
            · exact ⟨_, setEncode_ok_eq _ _ _ _ _ _ _ h⟩
    · exact ⟨_, setEncode_ok_eq _ _ _ _ _ _ _ h⟩

/-- A successful `V3.Delete` removed the key from the snapshot links
and from the index. -/
theorem Delete_ok_eq (st : V3.Db) (env : CallEnv) (key : String) (st' : V3.Db)
    (h : V3.Delete st env key = (st', .ok ())) :
    linksOf st'.ipfs st'.snapshotCID = eraseKey key (linksOf st.ipfs st.snapshotCID) ∧
    st'.cidLookup = eraseKey key st.cidLookup := by
  unfold V3.Delete at h
  split at h
  · simp at h
  · split at h
    · simp at h
    · rename_i ipfs1 snap heq
      dsimp only at h
      unfold Ipfs.rmLink at heq
      split at heq
      · dsimp only at heq
        split at heq
        · exact absurd heq (by simp)
        · simp only [Except.ok.injEq, Prod.mk.injEq] at heq
          obtain ⟨hipfs1, hsnap⟩ := heq
          split at h
          · simp at h
          · simp only [Prod.mk.injEq] at h
            rw [← h.1]
            dsimp only
            constructor
            · rw [linksOf, ← hipfs1, ← hsnap]
              dsimp only
              rw [alookup, if_pos rfl]
              rfl
            · rfl
      · exact absurd heq (by simp)

/-! ## Claim theorems: snapshot/index agreement -/

/-- Counterexample for C2 as stated: a `Set` whose announcement fails
and a `Delete` whose unpin fails both return with the snapshot node
already carrying the new link state while the in-memory index still
carries the old one, so the snapshot links and the index disagree after
these operations. -/
theorem snapshot_index_sync_counterexample :
    (fxSetFail.2.2 = .err .publishFailed ∧
      alookup (linksOf fxSetFail.1.ipfs fxSetFail.1.snapshotCID) "a" = some "cid-1" ∧
      alookup fxSetFail.1.cidLookup "a" = none) ∧
    (fxDelFail.2 = .err .unpinFailed ∧
      alookup (linksOf fxDelFail.1.ipfs fxDelFail.1.snapshotCID) "k" = none ∧
      alookup fxDelFail.1.cidLookup "k" = some "c0") :=
  ⟨⟨rfl, rfl, rfl⟩, ⟨rfl, rfl, rfl⟩⟩

/-- C2 (amended): after every Set and every Delete that returns
without error, the links of the snapshot DAG node equal the in-memory
index (the index is written only after `AddLink`/`RmLink` succeed);
the failure paths after the snapshot update — a failed announcement in
`Set`, a failed unpin in `Delete` — are excluded by the
counterexample. -/
theorem snapshot_index_sync_on_success :
    (∀ (g : AEAD) (st : V3.Db) (env : CallEnv) (rec : Record),
      V3.agrees st → (V3.Set g st env rec).2.2 = .ok () →
      V3.agrees (V3.Set g st env rec).1) ∧
    (∀ (st : V3.Db) (env : CallEnv) (key : String),
      V3.agrees st → (V3.Delete st env key).2 = .ok () →
      V3.agrees (V3.Delete st env key).1) := by
  constructor
  · intro g st env rec hag hok
    have hsp : V3.Set g st env rec =
        ((V3.Set g st env rec).1, (V3.Set g st env rec).2.1, .ok ()) := by
      rw [← hok]
    obtain ⟨key, cid, hlinks, hlook⟩ := Set_ok_eq _ _ _ _ _ _ hsp
    intro n
    rw [hlinks, hlook]
    by_cases hkn : key = n
    · subst hkn
      rw [alookup_upsert_self, alookup_upsert_self]
    · rw [alookup_upsert_ne _ _ _ _ hkn, alookup_upsert_ne _ _ _ _ hkn]
      exact hag n
  · intro st env key hag hok
    have hsp : V3.Delete st env key = ((V3.Delete st env key).1, .ok ()) := by
      rw [← hok]
    obtain ⟨hlinks, hlook⟩ := Delete_ok_eq _ _ _ _ hsp
    intro n
    rw [hlinks, hlook]
    by_cases hkn : key = n
    · subst hkn
      rw [alookup_erase_self, alookup_erase_self]
    · rw [alookup_erase_ne _ _ _ hkn, alookup_erase_ne _ _ _ hkn]
      exact hag n

/-- Witness for the amended C2: the concrete successful `Set` leaves
snapshot links and index agreeing at its key. -/
theorem snapshot_index_sync_on_success_witness :
    alookup (linksOf (V3.Set toyAEAD fxQuietDb (goodEnv ⟨1, 0⟩) (mkRec "u1" "k")).1.ipfs
      (V3.Set toyAEAD fxQuietDb (goodEnv ⟨1, 0⟩) (mkRec "u1" "k")).1.snapshotCID) "k" =
    alookup (V3.Set toyAEAD fxQuietDb (goodEnv ⟨1, 0⟩) (mkRec "u1" "k")).1.cidLookup "k" :=
  (snapshot_index_sync_on_success.1 toyAEAD fxQuietDb (goodEnv ⟨1, 0⟩) (mkRec "u1" "k")
    (fun _ => rfl) rfl) "k"

/-! ## Claim theorems: how Set treats the caller record -/

/-- C4 (code bug): `Set` does not operate on a copy — it mutates the
caller record in place (the added history comment and the final
`record.PreviousCID = cid` write are visible to the caller) and returns
that same record, although its own doc comment promises a copy. -/
theorem set_mutates_caller_record :
    fxSetOk.2.2 = .ok () ∧
    fxSetOk.2.1 ≠ mkRec "u1" "k" ∧
    fxSetOk.2.1.previousCID = "cid-1" ∧ (mkRec "u1" "k").previousCID = "" ∧
    fxSetOk.2.1.history.length = (mkRec "u1" "k").history.length + 1 := by
  refine ⟨rfl, by decide, rfl, rfl, rfl⟩

/-! ## Claim theorems: the version checks in Set -/

/-- `CheckTimeStamp old new` is false exactly when `new` is at or
before `old` in the seconds-then-nanoseconds order. -/
theorem checkTimeStamp_false_iff (a b : Ts) :
    CheckTimeStamp a b = false ↔
      (b.seconds < a.seconds ∨ (b.seconds = a.seconds ∧ b.nanos ≤ a.nanos)) := by
  rw [CheckTimeStamp]
  split_ifs with h1 h2 h3
  · exact iff_of_true rfl (Or.inl h1)
  · exact iff_of_true rfl (Or.inr ⟨h2.symm, by omega⟩)
  · refine iff_of_false (by simp) ?_
    rintro (h | ⟨h, h2'⟩) <;> omega
  · refine iff_of_false (by simp) ?_
    rintro (h | ⟨h, h2'⟩) <;> omega

/-- Under a healthy environment with no cipher key, no announcing and
no pinata interval, the shared tail of `Set` after the version checks
succeeds. -/
theorem setEncode_success (g : AEAD) (st : V3.Db) (env : CallEnv) (rec : Record)
    (key : String) (hcipher : st.cipherKey = []) (hdag : env.dagPutOk = true)
    (hlink : env.addLinkOk = true) (hann : st.announcing = false)
    (hpin : st.pinataInterval ≤ 0) :
    (V3.setEncode g st rec key env).2.2 = .ok () := by
  unfold V3.setEncode
  dsimp only
  rw [if_neg (by rintro ⟨hlen, -⟩; rw [hcipher] at hlen; exact hlen rfl)]
  unfold V3.setStore Ipfs.dagPut
  rw [hdag, if_pos rfl]
  dsimp only
  unfold Ipfs.addLink
  rw [hlink, if_pos rfl]
  dsimp only
  unfold V3.setAnnounce
  dsimp only
  rw [hann, if_neg (by simp)]
  unfold V3.setFinish
  dsimp only
  rw [if_neg (by rintro ⟨hgt, -⟩; omega)]

/-- C1: the existing-key path of `Set`.  With the key resolving to an
existing CID whose record fetch succeeds, `Set` fails with
`AttemptedOverwrite` exactly when the stored UUID differs, otherwise
with `RecordHistory` exactly when the stored CID differs from the
incoming record field `previous_cid`, otherwise with `AttemptedUpdate`
exactly when the incoming timestamp is not strictly newer (equal
timestamps rejected, seconds compared before nanoseconds), and the
update proceeds exactly when all three checks pass. -/
theorem set_version_checks (g : AEAD) (st : V3.Db) (env : CallEnv) (record : Record)
    (exCID : String) (ex : Record)
    (hlk : alookup st.cidLookup record.alias_ = some exCID)
    (hfetch : getRecordFromCID g st.ipfs st.cipherKey exCID = .ok ex)
    (hkey : ¬record.alias_.length = 0)
    (hcipher : st.cipherKey = []) (hdag : env.dagPutOk = true)
    (hlink : env.addLinkOk = true) (hann : st.announcing = false)
    (hpin : st.pinataInterval ≤ 0) :
    ((V3.Set g st env record).2.2 = .ok () ↔
      (ex.uuid = record.uuid ∧ exCID = record.previousCID ∧
        CheckTimeStamp ex.lastUpdatedTimestamp record.lastUpdatedTimestamp = true)) ∧
    ((V3.Set g st env record).2.2 = .err .attemptedOverwrite ↔ ex.uuid ≠ record.uuid) ∧
    ((V3.Set g st env record).2.2 = .err .recordHistory ↔
      (ex.uuid = record.uuid ∧ exCID ≠ record.previousCID)) ∧
    ((V3.Set g st env record).2.2 = .err .attemptedUpdate ↔
      (ex.uuid = record.uuid ∧ exCID = record.previousCID ∧
        CheckTimeStamp ex.lastUpdatedTimestamp record.lastUpdatedTimestamp = false)) ∧
    (∀ a b : Ts, CheckTimeStamp a b = false ↔
      (b.seconds < a.seconds ∨ (b.seconds = a.seconds ∧ b.nanos ≤ a.nanos))) := by
  have hset : V3.Set g st env record =
      (if ex.uuid ≠ record.uuid then (st, record, .err .attemptedOverwrite)
       else if exCID ≠ record.previousCID then (st, record, .err .recordHistory)
       else if !CheckTimeStamp ex.lastUpdatedTimestamp record.lastUpdatedTimestamp then
         (st, record, .err .attemptedUpdate)
       else V3.setEncode g st (record.addComment "Set: updating record." env.now)
         record.alias_ env) := by
    unfold V3.Set
    dsimp only
    rw [if_neg hkey, hlk]
    dsimp only
    rw [hfetch]
  have hout : (V3.Set g st env record).2.2 =
      (if ex.uuid ≠ record.uuid then Outcome.err Err.attemptedOverwrite
       else if exCID ≠ record.previousCID then Outcome.err Err.recordHistory
       else if !CheckTimeStamp ex.lastUpdatedTimestamp record.lastUpdatedTimestamp then
         Outcome.err Err.attemptedUpdate
       else Outcome.ok ()) := by
    rw [hset]
    by_cases h1 : ex.uuid ≠ record.uuid
    · rw [if_pos h1, if_pos h1]
    · rw [if_neg h1, if_neg h1]
      by_cases h2 : exCID ≠ record.previousCID
      · rw [if_pos h2, if_pos h2]
      · rw [if_neg h2, if_neg h2]
        by_cases h3 :
            (!CheckTimeStamp ex.lastUpdatedTimestamp record.lastUpdatedTimestamp) = true
        · rw [if_pos h3, if_pos h3]
        · rw [if_neg h3, if_neg h3]
          exact setEncode_success g st env _ _ hcipher hdag hlink hann hpin
  refine ⟨?_, ?_, ?_, ?_, fun a b => checkTimeStamp_false_iff a b⟩ <;> rw [hout] <;>
    by_cases h1 : ex.uuid = record.uuid <;>
    by_cases h2 : exCID = record.previousCID <;>
    by_cases h3 : CheckTimeStamp ex.lastUpdatedTimestamp record.lastUpdatedTimestamp
      = true <;>
    simp [h1, h2, h3]

/-- Witness for C1: the concrete valid update passes all three checks
and succeeds. -/
theorem set_version_checks_witness :
    (V3.Set toyAEAD fxDb (goodEnv ⟨9, 0⟩) fxUpdate).2.2 = .ok () :=
  (set_version_checks toyAEAD fxDb (goodEnv ⟨9, 0⟩) fxUpdate "c0"
      { fxStored with previousCID := "c0" } rfl rfl (by decide) rfl rfl rfl rfl
      (by decide)).1.mpr ⟨rfl, rfl, rfl⟩

/-! ## Supporting lemmas: no other code path returns
`ErrMaxEntriesExceeded` -/

theorem cipherKeyCheck_ne_max (key : List Nat) (e : Err)
    (h : cipherKeyCheck key = some e) : e ≠ .maxEntriesExceeded := by
  unfold cipherKeyCheck at h
  split at h
  · simp only [Option.some.injEq] at h
    subst h
    decide
  · split at h
    · simp only [Option.some.injEq] at h
      subst h
      decide
    · exact absurd h (by simp)

theorem recordEncrypt_ne_max (g : AEAD) (x : Record) (ck nonce : List Nat) (e : Err)
    (h : recordEncrypt g x ck nonce = .error e) : e ≠ .maxEntriesExceeded := by
  unfold recordEncrypt at h
  split at h
  · simp only [Except.error.injEq] at h
    subst h
    decide
  · split at h
    · rename_i e1 heq
      simp only [Except.error.injEq] at h
      subst h
      unfold encrypt at heq
      split at heq
      · rename_i e2 hchk
        simp only [Except.error.injEq] at heq
        subst heq
        exact cipherKeyCheck_ne_max _ _ hchk
      · exact absurd heq (by simp)
    · exact absurd h (by simp)

theorem getRecordFromCID_ne_max (g : AEAD) (i : Ipfs) (ck : List Nat) (cid : String)
    (e : Err) (h : getRecordFromCID g i ck cid = .err e) : e ≠ .maxEntriesExceeded := by
  unfold getRecordFromCID at h
  split at h
  · simp only [Outcome.err.injEq] at h
    subst h
    decide
  · split at h
    · rename_i e1 heq
      simp only [Outcome.err.injEq] at h
      subst h
      unfold Ipfs.dagGet at heq
      split at heq
      · exact absurd heq (by simp)
      · simp only [Except.error.injEq] at heq
        subst heq
        simp
    · split at h
      · split at h
        · simp only [Outcome.err.injEq] at h
          subst h
          simp
        · exact absurd h (by simp)
        · exact absurd h (by simp)
      · exact absurd h (by simp)

theorem publishAnnouncementV2_ne_max (st : V2.Db) (env : CallEnv) (e : Err)
    (h : V2.publishAnnouncement st env = some e) : e ≠ .maxEntriesExceeded := by
  unfold V2.publishAnnouncement at h
  split at h
  · simp only [Option.some.injEq] at h
    subst h
    decide
  · split at h
    · simp only [Option.some.injEq] at h
      subst h
      decide
    · split at h
      · exact absurd h (by simp)
      · simp only [Option.some.injEq] at h
        subst h
        decide

theorem setTail_ne_max (g : AEAD) (st : V2.Db) (rec : Record) (key : String)
    (env : CallEnv) : (V2.setTail g st rec key env).2.2 ≠ .err .maxEntriesExceeded := by
  unfold V2.setTail
  dsimp only
  split
  · rename_i e heq
    intro hcontra
    simp only [Outcome.err.injEq] at hcontra
    subst hcontra
    split at heq
    · exact recordEncrypt_ne_max _ _ _ _ _ heq rfl
    · exact absurd heq (by simp)
  · split
    · intro hcontra
      simp only [Outcome.err.injEq] at hcontra
      rename_i e heq
      subst hcontra
      unfold Ipfs.dagPut at heq
      split at heq
      · exact absurd heq (by simp)
      · simp at heq
    · split
      · intro hcontra
        simp at hcontra
      · split
        · split
          · rename_i e heq
            intro hcontra
            simp only [Outcome.err.injEq] at hcontra
            subst hcontra
            exact publishAnnouncementV2_ne_max _ _ _ heq rfl
          · simp
        · simp

/-- A successful `setTail` bumps the entry count by one. -/
theorem setTail_ok_count (g : AEAD) (st : V2.Db) (rec : Record) (key : String)
    (env : CallEnv) (st1 : V2.Db) (r1 : Record)
    (h : V2.setTail g st rec key env = (st1, r1, .ok ())) :
    st1.currentNumEntries = st.currentNumEntries + 1 := by
  unfold V2.setTail at h
  dsimp only at h
  split at h
  · simp at h
  · split at h
    · simp at h
    · split at h
      · simp at h
      · split at h
        · split at h
          · simp at h
          · simp only [Prod.mk.injEq] at h
            rw [← h.1]
        · simp only [Prod.mk.injEq] at h
          rw [← h.1]

/-! ## Claim theorems: the maxEntries gate -/

/-- Counterexample for C3 as stated: at the cap, a `Set` on an already
existing key with an otherwise valid update is rejected with
`MaxEntriesExceeded` (with a higher cap the same call succeeds), so the
gate does not distinguish new keys from updates. -/
theorem max_entries_update_counterexample :
    fxFullDb.currentNumEntries = fxFullDb.maxEntries ∧
    alookup fxFullDb.cidLookup "k" = some "c0" ∧
    (V2.Set toyAEAD fxFullDb (goodEnv ⟨3, 0⟩) "k" fxUpdate).2.2 =
      .err .maxEntriesExceeded ∧
    (V2.Set toyAEAD { fxFullDb with maxEntries := 10 } (goodEnv ⟨3, 0⟩) "k"
      fxUpdate).2.2 = .ok () :=
  ⟨rfl, rfl, rfl, rfl⟩

/-- C3 (amended): `Set` of the earlier generation fails with
`MaxEntriesExceeded` exactly when `current_entries == max_entries`,
whether or not the key is already present; moreover every successful
`Set` — updates of existing keys included — increments the entry
count. -/
theorem max_entries_gate :
    (∀ (g : AEAD) (st : V2.Db) (env : CallEnv) (key : String) (r : Record),
      (V2.Set g st env key r).2.2 = .err .maxEntriesExceeded ↔
        st.currentNumEntries = st.maxEntries) ∧
    (∀ (g : AEAD) (st : V2.Db) (env : CallEnv) (key : String) (r : Record)
      (st1 : V2.Db) (r1 : Record), V2.Set g st env key r = (st1, r1, .ok ()) →
      st1.currentNumEntries = st.currentNumEntries + 1) := by
  constructor
  · intro g st env key r
    constructor
    · intro h
      by_contra hne
      unfold V2.Set at h
      rw [if_neg hne] at h
      split at h
      · split at h
        · rename_i e heq
          dsimp only at h
          simp only [Outcome.err.injEq] at h
          exact getRecordFromCID_ne_max _ _ _ _ _ heq h
        · simp at h
        · split at h
          · simp at h
          · split at h
            · simp at h
            · split at h
              · simp at h
              · exact setTail_ne_max _ _ _ _ _ h
      · exact setTail_ne_max _ _ _ _ _ h
    · intro h
      unfold V2.Set
      rw [if_pos h]
  · intro g st env key r st1 r1 h
    unfold V2.Set at h
    split at h
    · simp at h
    · split at h
      · split at h
        · simp at h
        · simp at h
        · split at h
          · simp at h
          · split at h
            · simp at h
            · split at h
              · simp at h
              · exact setTail_ok_count _ _ _ _ _ _ _ h
      · exact setTail_ok_count _ _ _ _ _ _ _ h

/-- Witness for the amended C3: a new key at the cap is rejected, and a
successful create bumps the count. -/
theorem max_entries_gate_witness :
    (V2.Set toyAEAD fxFullDb (goodEnv ⟨3, 0⟩) "new key" (mkRec "u9" "x")).2.2 =
      .err .maxEntriesExceeded ∧
    (V2.Set toyAEAD fxV2Db (goodEnv ⟨1, 0⟩) "k" (mkRec "u1" "rec one")).1.currentNumEntries =
      fxV2Db.currentNumEntries + 1 :=
  ⟨(max_entries_gate.1 toyAEAD fxFullDb (goodEnv ⟨3, 0⟩) "new key" (mkRec "u9" "x")).mpr
      rfl,
    max_entries_gate.2 toyAEAD fxV2Db (goodEnv ⟨1, 0⟩) "k" (mkRec "u1" "rec one") _ _ rfl⟩

/-! ## Claim theorems: entry counting across updates and deletes -/

/-- C7 (code bug): create "k", update it in place, delete it — the
sole entry is gone and the index is empty, yet `current_entries` is 1
(the in-place update incremented it) and `GetSnapshot` returns the
snapshot CID instead of the empty-string sentinel for a database with
no entries. -/
theorem update_then_delete_count_bug :
    bugStep1.2.2 = .ok () ∧ bugStep2.2.2 = .ok () ∧ bugStep3.2 = .ok () ∧
    bugStep3.1.cidLookup = [] ∧ bugStep3.1.currentNumEntries = 1 ∧
    V2.GetSnapshot bugStep3.1 = "cid-5" ∧ V2.GetSnapshot bugStep3.1 ≠ "" := by
  refine ⟨rfl, rfl, rfl, rfl, rfl, rfl, ?_⟩
  intro h
  exact absurd ((rfl : V2.GetSnapshot bugStep3.1 = "cid-5").symm.trans h) (by decide)

/-! ## Supporting lemmas: the Listen loop -/

/-- `AddComment` does not touch `PreviousCID`. -/
theorem addComment_previousCID (x : Record) (t : String) (n : Ts) :
    (x.addComment t n).previousCID = x.previousCID := rfl

/-- A record fetched from a CID carries that CID in `PreviousCID`. -/
theorem getRecordFromCID_prev (g : AEAD) (i : Ipfs) (ck : List Nat) (cid : String)
    (r : Record) (h : getRecordFromCID g i ck cid = .ok r) : r.previousCID = cid := by
  unfold getRecordFromCID at h
  split at h
  · simp at h
  · split at h
    · simp at h
    · split at h
      · split at h
        · simp at h
        · simp at h
        · simp only [Outcome.ok.injEq] at h
          rw [← h]
      · simp only [Outcome.ok.injEq] at h
        rw [← h]

/-- Once a CID is in the tracker, the loop emits no record for it. -/
theorem listen_seen (g : AEAD) (i : Ipfs) (ck : List Nat) :
    ∀ (evs : List PSEvent) (tracker : List String) (c : String), c ∈ tracker →
      ((listenLoop g i ck evs tracker).1.countP (fun r => r.previousCID == c)) = 0 := by
  intro evs
  induction evs with
  | nil =>
    intro tracker c _
    rfl
  | cons ev rest ih =>
    intro tracker c hc
    cases ev with
    | msg data sender now =>
      rw [listenLoop]
      by_cases hmem : data ∈ tracker
      · rw [if_pos hmem]
        exact ih tracker c hc
      · rw [if_neg hmem]
        cases hfetch : getRecordFromCID g i ck data with
        | err e =>
          simp only [hfetch]
          exact ih (data :: tracker) c (List.mem_cons_of_mem _ hc)
        | panicked =>
          simp only [hfetch]
          rfl
        | ok r =>
          simp only [hfetch]
          rw [List.countP_cons]
          have hprev : r.previousCID = data := getRecordFromCID_prev _ _ _ _ _ hfetch
          have hdc : data ≠ c := fun hdc => hmem (hdc ▸ hc)
          have hpred : (((r.addComment ("collected from " ++ sender ++ " via pubsub.")
              now).previousCID == c) = false) := by
            rw [addComment_previousCID, hprev]
            exact beq_false_of_ne hdc
          rw [hpred]
          simpa using ih (data :: tracker) c (List.mem_cons_of_mem _ hc)
    | psErr e =>
      rw [listenLoop]
      exact ih tracker c hc
    | term unsubOk =>
      rw [listenLoop]
      rfl

/-- The record stream of the listen loop yields at most one record per
CID, whatever the tracker already holds. -/
theorem listen_bound (g : AEAD) (i : Ipfs) (ck : List Nat) :
    ∀ (evs : List PSEvent) (tracker : List String) (c : String),
      ((listenLoop g i ck evs tracker).1.countP (fun r => r.previousCID == c)) ≤ 1 := by
  intro evs
  induction evs with
  | nil =>
    intro tracker c
    exact Nat.zero_le 1
  | cons ev rest ih =>
    intro tracker c
    cases ev with
    | msg data sender now =>
      rw [listenLoop]
      by_cases hmem : data ∈ tracker
      · rw [if_pos hmem]
        exact ih tracker c
      · rw [if_neg hmem]
        cases hfetch : getRecordFromCID g i ck data with
        | err e =>
          simp only [hfetch]
          exact ih (data :: tracker) c
        | panicked =>
          simp only [hfetch]
          exact Nat.zero_le 1
        | ok r =>
          simp only [hfetch]
          rw [List.countP_cons]
          have hprev : r.previousCID = data := getRecordFromCID_prev _ _ _ _ _ hfetch
          by_cases hdc : data = c
          · subst hdc
            have hz := listen_seen g i ck rest (data :: tracker) data
              (List.mem_cons_self _ _)
            have hpred : (((r.addComment ("collected from " ++ sender ++ " via pubsub.")
                now).previousCID == data) = true) := by
              rw [addComment_previousCID, hprev]
              exact beq_self_eq_true data
            rw [hpred]
            simp [hz]
          · have hpred : (((r.addComment ("collected from " ++ sender ++ " via pubsub.")
                now).previousCID == c) = false) := by
              rw [addComment_previousCID, hprev]
              exact beq_false_of_ne hdc
            rw [hpred]
            simpa using ih (data :: tracker) c
    | psErr e =>
      rw [listenLoop]
      exact ih tracker c
    | term unsubOk =>
      rw [listenLoop]
      exact Nat.zero_le 1

/-! ## Claim theorems: Listen deduplication -/

/-- C9: starting from an empty seen-CID set, the record stream of the
Listen loop yields a record for any given CID at most once, however
often that CID is announced; and a fetch error on a fresh CID goes to
the error stream while the loop continues with the CID marked seen. -/
theorem listen_dedup :
    (∀ (g : AEAD) (i : Ipfs) (ck : List Nat) (evs : List PSEvent) (c : String),
      ((listenLoop g i ck evs []).1.countP (fun r => r.previousCID == c)) ≤ 1) ∧
    (∀ (g : AEAD) (i : Ipfs) (ck : List Nat) (data sender : String) (now : Ts)
      (rest : List PSEvent) (tracker : List String) (e : Err),
      ¬data ∈ tracker → getRecordFromCID g i ck data = .err e →
      listenLoop g i ck (PSEvent.msg data sender now :: rest) tracker =
        ((listenLoop g i ck rest (data :: tracker)).1,
          e :: (listenLoop g i ck rest (data :: tracker)).2)) := by
  constructor
  · intro g i ck evs c
    exact listen_bound g i ck evs [] c
  · intro g i ck data sender now rest tracker e hmem hfetch
    rw [listenLoop, if_neg hmem]
    simp only [hfetch]

/-- Witness for C9: a concrete announcement whose fetch fails is
reported on the error stream and the loop goes on. -/
theorem listen_dedup_witness :
    listenLoop toyAEAD fxDirIpfs [] [PSEvent.msg "nope" "peer" ⟨1, 0⟩] [] =
      ((listenLoop toyAEAD fxDirIpfs [] [] ["nope"]).1,
        Err.dagGetFailed "nope" :: (listenLoop toyAEAD fxDirIpfs [] [] ["nope"]).2) :=
  listen_dedup.2 toyAEAD fxDirIpfs [] "nope" "peer" ⟨1, 0⟩ [] [] (Err.dagGetFailed "nope")
    (by simp) rfl

end Stark

example : Stark.b64encode [77, 97, 110] = "TWFu" := by decide
example : Stark.b64encode [77, 97] = "TWE=" := by decide
example : Stark.b64encode [77] = "TQ==" := by decide
example : Stark.b64decode "TWFu" = [77, 97, 110] := rfl
example : Stark.b64decode "TWE=" = [77, 97] := rfl
example : Stark.b64decode "TQ==" = [77] := rfl
example : Stark.b64decode "" = [] := rfl
example : Stark.toyOpn [7, 8] [] (Stark.toySeal [7, 8] [] [1, 2, 3]) = some [1, 2, 3] := by decide

example : Stark.CheckTimeStamp ⟨1, 5⟩ ⟨1, 5⟩ = false := by decide
example : Stark.CheckTimeStamp ⟨1, 5⟩ ⟨1, 6⟩ = true := by decide
example : Stark.CheckTimeStamp ⟨2, 0⟩ ⟨1, 9⟩ = false := by decide
example : Stark.alookup [("a", 1), ("b", 2)] "b" = some 2 := by decide
example : Stark.upsert "a" 3 [("a", 1), ("b", 2)] = [("a", 3), ("b", 2)] := by decide
example : Stark.eraseKey "a" [("a", 1), ("b", 2)] = [("b", 2)] := by decide
